import Mathlib

/-!
Verification of the Sigma-to-SumoLogic detection-as-code converter.

This file shallowly embeds the rule-to-query translation engine of
`scripts/converters/sigma_to_sumologic.py` and the condition-reference
check of `scripts/validators/validate_sigma.py`, and proves properties
of the embedded functions.

Modelling conventions:
- Python dictionaries are association lists `List (String × α)`; Python
  dict insertion order is list order, and keys are unique in every rule
  document (Python dicts cannot hold duplicate keys).
- Python strings are `String`; `str.lower()` / `str.upper()` act
  per-character (ASCII case mapping, which agrees with Python on the
  ASCII field and tag names the converter processes).
- The regex `\b(\w+)\b` used by the validator matches exactly the
  maximal runs of word characters (alphanumeric or underscore), which is
  how it is embedded (`wordTokens`); `\w` is modelled by its ASCII part.
- The `condition` entry of a detection block is a string in every rule
  document (data-model invariant); the embedding extracts it as a string
  and treats a non-string entry as the empty condition.
-/

namespace DaaC

/-- Python `needle in haystack` for lists (contiguous-sublist test). -/
def listInfix (needle : List Char) : List Char → Bool
  | [] => needle.isEmpty
  | c :: rest => needle.isPrefixOf (c :: rest) || listInfix needle rest

/-- Python substring test `needle in hay`. -/
def strContains (hay needle : String) : Bool :=
  listInfix needle.data hay.data

/-- Python `s.startswith(pre)`. -/
def pyStartswith (s pre : String) : Bool :=
  pre.data.isPrefixOf s.data

/-- Python `s.lower()` (ASCII case mapping). -/
def pyLower (s : String) : String :=
  ⟨s.data.map Char.toLower⟩

/-- Python `s.upper()` (ASCII case mapping). -/
def pyUpper (s : String) : String :=
  ⟨s.data.map Char.toUpper⟩

/-- Left-to-right non-overlapping replacement scan, driven by a fuel
argument so that the recursion is structural (each step consumes at
least one character, so fuel equal to the input length never runs
out). -/
def replaceAllFuel (pat rep : List Char) : Nat → List Char → List Char
  | 0, s => s
  | _ + 1, [] => []
  | fuel + 1, c :: cs =>
    if pat ≠ [] && pat.isPrefixOf (c :: cs) then
      rep ++ replaceAllFuel pat rep fuel ((c :: cs).drop pat.length)
    else
      c :: replaceAllFuel pat rep fuel cs

/-- Python `s.replace(pat, rep)` on character lists: replace every
non-overlapping occurrence of `pat`, scanning left to right.  (The
converter only ever calls this with the non-empty pattern `attack.`.) -/
def replaceAllList (pat rep s : List Char) : List Char :=
  replaceAllFuel pat rep s.length s

/-- Python `s.replace(pat, rep)`. -/
def pyReplace (s pat rep : String) : String :=
  ⟨replaceAllList pat.data rep.data s.data⟩

/-- Python dict lookup `d.get(k)` on an association list (first match;
rule-document dicts have unique keys). -/
def dictGet (k : String) : List (String × α) → Option α
  | [] => none
  | (k2, v) :: rest => if k = k2 then some v else dictGet k rest

/-- The closed tagged variant of Sigma detection values: scalar string,
scalar integer, ordered sequence, or (modifier-) mapping. -/
inductive SigmaValue where
  | str (s : String)
  | int (n : Int)
  | list (vs : List SigmaValue)
  | dict (entries : List (String × SigmaValue))

/-- Scalar detection values: strings and integers. -/
def SigmaValue.isScalar : SigmaValue → Bool
  | .str _ => true
  | .int _ => true
  | _ => false

/-- Mapping-shaped detection values (Python `isinstance(v, dict)`). -/
def SigmaValue.isDict : SigmaValue → Bool
  | .dict _ => true
  | _ => false

/-- The single-quote character (written by code point to keep source plain). -/
def squote : Char := Char.ofNat 39

/-- The double-quote character. -/
def dquote : Char := Char.ofNat 34

/-- Escape a backslash or the chosen quote character, as Python `repr`
does inside a quoted string (rule documents hold printable ASCII, so the
non-printable escapes of `repr` never fire). -/
def pyReprEscape (q : Char) (s : List Char) : List Char :=
  s.flatMap (fun c =>
    if c = '\\' then ['\\', '\\']
    else if c = q then ['\\', q]
    else [c])

/-- Python `repr` of a string: single quotes by default, double quotes
when the string holds a single quote but no double quote. -/
def pyStrRepr (s : String) : String :=
  let q := if s.data.contains squote && !(s.data.contains dquote) then dquote else squote
  ⟨q :: (pyReprEscape q s.data ++ [q])⟩

mutual

/-- Python `repr` of a detection value (dict keys and values are
rendered with `repr`, ints and containers with their standard forms). -/
def pyRepr : SigmaValue → String
  | .str s => pyStrRepr s
  | .int n => toString n
  | .list vs => "[" ++ String.intercalate ", " (pyReprList vs) ++ "]"
  | .dict es => "\x7b" ++ String.intercalate ", " (pyReprEntries es) ++ "\x7d"

/-- `pyRepr` mapped over a list of values. -/
def pyReprList : List SigmaValue → List String
  | [] => []
  | v :: vs => pyRepr v :: pyReprList vs

/-- `pyRepr` mapped over dict entries, rendered `key: value`. -/
def pyReprEntries : List (String × SigmaValue) → List String
  | [] => []
  | (k, v) :: es => (pyStrRepr k ++ ": " ++ pyRepr v) :: pyReprEntries es

end

/-- Python `str()` of a detection value: a string renders as itself,
every other value as its `repr`. -/
def pyStr : SigmaValue → String
  | .str s => s
  | v => pyRepr v

/-- The fixed Sigma-field → SumoLogic-field table
(`SigmaToSumoLogicConverter.field_mappings`). -/
def field_mappings : List (String × String) :=
  [ ("EventID", "eventid"),
    ("ProviderName", "%\"provider.name\""),
    ("Provider_Name", "%\"provider.name\""),
    ("Channel", "_sourceName"),
    ("Computer", "_sourceHost"),
    ("UserName", "user"),
    ("User", "user"),
    ("TargetUserName", "%\"event.user.name\""),
    ("SubjectUserName", "%\"event.subject.user.name\""),
    ("CommandLine", "commandline"),
    ("Image", "image"),
    ("ParentImage", "parent_image"),
    ("ProcessId", "process_id"),
    ("ParentProcessId", "parent_process_id"),
    ("SourceIp", "src_ip"),
    ("DestinationIp", "dest_ip"),
    ("SourcePort", "src_port"),
    ("DestinationPort", "dest_port") ]

/-- `convert_field_name`: table hit wins, otherwise the field name is
lowercased. -/
def convert_field_name (sigma_field : String) : String :=
  match dictGet sigma_field field_mappings with
  | some v => v
  | none => pyLower sigma_field

mutual

/-- `convert_value`: quote strings (the wildcard branch of the source
returns the same quoted form as the plain branch), print integers,
OR-join sequences, and stringify anything else. -/
def convert_value : SigmaValue → String
  | .str s =>
    if strContains s "*" then dquote.toString ++ s ++ dquote.toString
    else dquote.toString ++ s ++ dquote.toString
  | .int n => toString n
  | .list vs => String.intercalate " OR " (convert_value_list vs)
  | .dict es => pyStr (.dict es)

/-- `convert_value` mapped over the elements of a sequence value. -/
def convert_value_list : List SigmaValue → List String
  | [] => []
  | v :: vs => convert_value v :: convert_value_list vs

end

/-- `build_selection_query`: one condition per field in insertion order,
AND-joined and prefixed with the `| where` introducer; the empty
selection yields the empty string. -/
def build_selection_query (selection : List (String × SigmaValue)) : String :=
  let conditions := selection.map (fun fv =>
    let sumo_field := convert_field_name fv.1
    match fv.2 with
    | .list vs =>
      "(" ++ String.intercalate " OR "
        (vs.map (fun v => sumo_field ++ " = " ++ convert_value v)) ++ ")"
    | .dict es =>
      match dictGet "contains" es with
      | some v => sumo_field ++ " matches \"*" ++ pyStr v ++ "*\""
      | none =>
        match dictGet "startswith" es with
        | some v => sumo_field ++ " matches \"" ++ pyStr v ++ "*\""
        | none =>
          match dictGet "endswith" es with
          | some v => sumo_field ++ " matches \"*" ++ pyStr v ++ "\""
          | none => sumo_field ++ " = " ++ convert_value (.dict es)
    | v => sumo_field ++ " = " ++ convert_value v)
  if conditions ≠ [] then " | where " ++ String.intercalate " AND " conditions else ""

/-- A rule's logsource block: `product` / `category` / `service`, each
possibly absent. -/
structure LogSource where
  product : Option String
  category : Option String
  service : Option String
deriving DecidableEq

/-- The fixed logsource lookup table
(`SigmaToSumoLogicConverter.logsource_mappings`); each leaf dict is an
association list of filter key/value pairs. -/
def logsource_mappings : List (String × List (String × List (String × String))) :=
  [ ("windows",
      [ ("security", [("_sourceName", "Security")]),
        ("system", [("_sourceName", "System")]),
        ("application", [("_sourceName", "Application")]),
        ("sysmon", [("_sourceName", "Sysmon")]),
        ("powershell", [("_sourceName", "PowerShell")]),
        ("wmi", [("_sourceName", "WMI")]) ]),
    ("linux",
      [ ("auditd", [("_sourceName", "auditd")]),
        ("syslog", [("_sourceName", "syslog")]),
        ("auth", [("_sourceName", "auth")]) ]),
    ("cloud",
      [ ("aws", [("_sourceName", "aws")]),
        ("azure", [("_sourceName", "azure")]),
        ("gcp", [("_sourceName", "gcp")]) ]) ]

/-- Render one source-mapping dict as `key=value` fragments
(the `for key, value in source_mapping.items()` loops). -/
def render_source_mapping (m : List (String × String)) : List String :=
  m.map (fun kv => kv.1 ++ "=" ++ kv.2)

/-- `get_logsource_filter`: category before service under the product's
table, wildcard `_index=*` when nothing matches. -/
def get_logsource_filter (logsource : LogSource) : String :=
  let product := pyLower (logsource.product.getD "")
  let category := pyLower (logsource.category.getD "")
  let service := pyLower (logsource.service.getD "")
  let filters : List String :=
    match dictGet product logsource_mappings with
    | none => []
    | some table =>
      if category != "" && (dictGet category table).isSome then
        render_source_mapping ((dictGet category table).getD [])
      else if service != "" && (dictGet service table).isSome then
        render_source_mapping ((dictGet service table).getD [])
      else []
  if filters ≠ [] then String.intercalate " " filters else "_index=*"

/-- The first loop of `parse_condition`: collect every detection key
other than `condition` that occurs as a substring of the condition
string, in detection insertion order. -/
def parse_condition_selections (condition : String)
    (detection : List (String × SigmaValue)) : List String :=
  (detection.map Prod.fst).filter
    (fun key => key != "condition" && strContains condition key)

/-- `parse_condition`: build the selection query of every referenced
selection whose value is a mapping, and concatenate the parts. -/
def parse_condition (condition : String)
    (detection : List (String × SigmaValue)) : String :=
  let selections := parse_condition_selections condition detection
  let query_parts := selections.filterMap (fun name =>
    match dictGet name detection with
    | some (.dict es) => some (build_selection_query es)
    | _ => none)
  String.join query_parts

/-- The tag record of a monitor configuration. -/
structure MonitorTags where
  ttp : String
  logsource : String
  owner : String
deriving DecidableEq

/-- A SumoLogic monitor configuration as assembled by
`convert_sigma_to_sumologic`. -/
structure MonitorConfig where
  name : String
  description : String
  query : String
  level : String
  tags : MonitorTags
  threshold : Nat
deriving DecidableEq

/-- A Sigma rule document; every field the converter reads is optional
(`dict.get` with a default in the source). -/
structure SigmaRule where
  title : Option String
  description : Option String
  level : Option String
  tags : Option (List String)
  detection : Option (List (String × SigmaValue))
  logsource : Option LogSource

/-- The `detection.get('condition', '')` extraction; rule documents
carry string conditions (data-model invariant), so a non-string entry is
read as the empty condition. -/
def conditionString (detection : List (String × SigmaValue)) : String :=
  match dictGet "condition" detection with
  | some (.str s) => s
  | _ => ""

/-- The MITRE-tag loop of `convert_sigma_to_sumologic`: each
`attack.t*` tag overwrites the `ttp` entry, every other `attack.*` tag
is appended to the tactic list. -/
def mitre_tags_fold (tags : List String) : Option String × List String :=
  tags.foldl (fun mitre_tags tag =>
    if pyStartswith tag "attack.t" then
      (some (pyUpper (pyReplace tag "attack." "")), mitre_tags.2)
    else if pyStartswith tag "attack." then
      (mitre_tags.1, mitre_tags.2 ++ [pyReplace tag "attack." ""])
    else mitre_tags) (none, [])

/-- The fixed severity → alert-threshold table. -/
def severity_map : List (String × Nat) :=
  [ ("critical", 0), ("high", 0), ("medium", 0), ("low", 1), ("informational", 2) ]

/-- `convert_sigma_to_sumologic`: assemble the monitor configuration
from metadata, the logsource filter and the parsed condition. -/
def convert_sigma_to_sumologic (sigma_rule : SigmaRule) : MonitorConfig :=
  let title := sigma_rule.title.getD "Untitled Detection"
  let description := sigma_rule.description.getD ""
  let level := sigma_rule.level.getD "medium"
  let tags := sigma_rule.tags.getD []
  let detection := sigma_rule.detection.getD []
  let logsource := sigma_rule.logsource.getD ⟨none, none, none⟩
  let base_query := get_logsource_filter logsource
  let condition := conditionString detection
  let detection_query := parse_condition condition detection
  let full_query := base_query ++ detection_query
  let mitre_tags := mitre_tags_fold tags
  let logsource_tag := logsource.product.getD "generic"
  { name := title,
    description := description,
    query := full_query,
    level := level,
    tags := { ttp := mitre_tags.1.getD "", logsource := logsource_tag, owner := "secops" },
    threshold := (dictGet level severity_map).getD 0 }

/-- `generate_terraform`: render the monitor configuration as a
Terraform `sumologic_monitor` resource block, interpolating the
configuration fields verbatim (no quote escaping, as in the source). -/
def generate_terraform (monitor_config : MonitorConfig) (rule_id : String) : String :=
  "# Sumo Logic Monitor Module\n" ++
  "# Provider configuration is inherited from root main.tf\n" ++
  "# This module only defines the monitor resource\n" ++
  "\n" ++
  "resource \"sumologic_monitor\" \"" ++ rule_id ++ "\" \x7b\n" ++
  "  name                      = \"" ++ monitor_config.name ++ "\"\n" ++
  "  description               = \"" ++ monitor_config.description ++ "\"\n" ++
  "  type                      = \"MonitorsLibraryMonitor\"\n" ++
  "  is_disabled               = false\n" ++
  "  monitor_type              = \"Logs\"\n" ++
  "  evaluation_delay          = \"0m\"\n" ++
  "  notification_group_fields = [\"_sourcehost\"]\n" ++
  "\n" ++
  "  tags = \x7b\n" ++
  "    \"ttp\"       = \"" ++ monitor_config.tags.ttp ++ "\"\n" ++
  "    \"logsource\" = \"" ++ monitor_config.tags.logsource ++ "\"\n" ++
  "    \"owner\"     = \"" ++ monitor_config.tags.owner ++ "\"\n" ++
  "    \"level\"     = \"" ++ monitor_config.level ++ "\"\n" ++
  "  \x7d\n" ++
  "\n" ++
  "  queries \x7b\n" ++
  "    row_id = \"A\"\n" ++
  "    query  = \"" ++ monitor_config.query ++ "\"\n" ++
  "  \x7d\n" ++
  "\n" ++
  "  trigger_conditions \x7b\n" ++
  "    logs_static_condition \x7b\n" ++
  "      warning \x7b\n" ++
  "        time_range = \"-15m\"\n" ++
  "        alert \x7b\n" ++
  "          threshold      = " ++ toString monitor_config.threshold ++ "\n" ++
  "          threshold_type = \"GreaterThan\"\n" ++
  "        \x7d\n" ++
  "        resolution \x7b\n" ++
  "          threshold         = " ++ toString monitor_config.threshold ++ "\n" ++
  "          threshold_type    = \"LessThanOrEqual\"\n" ++
  "          resolution_window = \"15m\"\n" ++
  "        \x7d\n" ++
  "      \x7d\n" ++
  "    \x7d\n" ++
  "  \x7d\n" ++
  "\n" ++
  "  notifications \x7b\n" ++
  "    notification \x7b\n" ++
  "      connection_type = \"Email\"\n" ++
  "      recipients = [\n" ++
  "        \"secops@example.com\",\n" ++
  "      ]\n" ++
  "      subject      = \"Monitor Alert: \x7b\x7bTriggerType\x7d\x7d on \x7b\x7bName\x7d\x7d\"\n" ++
  "      time_zone    = \"UTC\"\n" ++
  "      message_body = \"Triggered \x7b\x7bTriggerType\x7d\x7d Alert on \x7b\x7bName\x7d\x7d: \x7b\x7bQueryURL\x7d\x7d\"\n" ++
  "    \x7d\n" ++
  "    run_for_trigger_types = [\"Warning\"]\n" ++
  "  \x7d\n" ++
  "\x7d\n"

/-- ASCII word character, the `\w` class of the validator's regex on the
ASCII field the rule identifiers live in. -/
def isWordChar (c : Char) : Bool := c.isAlphanum || c = '_'

/-- Scanner behind `wordTokens`: `acc` holds the reversed current run of
word characters. -/
def wordTokensAux : List Char → List Char → List String
  | [], acc => if acc.isEmpty then [] else [⟨acc.reverse⟩]
  | c :: cs, acc =>
    if isWordChar c then wordTokensAux cs (c :: acc)
    else if acc.isEmpty then wordTokensAux cs []
    else (⟨acc.reverse⟩ : String) :: wordTokensAux cs []

/-- The maximal runs of word characters of a string, in order: the match
list of the validator's `re.findall` with pattern `\b(\w+)\b`. -/
def wordTokens (s : String) : List String := wordTokensAux s.data []

/-- The reserved condition keywords skipped by the validator's
reference check. -/
def logic_keywords : List String := ["and", "or", "not", "of", "all", "1"]

/-- The validator's dangling-reference warning text for one identifier. -/
def dangling_ref_warning (ref : String) : String :=
  "Condition references \x27" ++ ref ++ "\x27 but no such selection exists"

/-- The reference-check loop of `validate_detection`: walk the word
tokens of the condition, skip keywords, and warn about every token that
is not a key of the detection mapping. -/
def condition_ref_warnings_go (detection : List (String × SigmaValue)) :
    List String → List String
  | [] => []
  | ref :: rest =>
    if logic_keywords.contains ref then condition_ref_warnings_go detection rest
    else if (dictGet ref detection).isSome then condition_ref_warnings_go detection rest
    else dangling_ref_warning ref :: condition_ref_warnings_go detection rest

/-- The warnings the condition-reference check of `validate_detection`
appends for a given condition string. -/
def condition_ref_warnings (condition : String)
    (detection : List (String × SigmaValue)) : List String :=
  condition_ref_warnings_go detection (wordTokens condition)

/-- `validate_detection`, restricted to its typed reachable branches:
the pair (errors, warnings) it appends.  (The `detection must be a
dictionary` error is unreachable in the typed embedding; a rule
document's condition is a string, a non-string entry contributes no
reference warnings.) -/
def validate_detection_checks (detection : List (String × SigmaValue)) :
    List String × List String :=
  let errors1 : List String :=
    if (dictGet "condition" detection).isNone then
      ["detection must contain \x27condition\x27 field"]
    else []
  let selection_keys := (detection.map Prod.fst).filter (fun k => k != "condition")
  let errors2 : List String :=
    if selection_keys.isEmpty then ["detection must contain at least one selection"] else []
  let warnings : List String :=
    match dictGet "condition" detection with
    | some (.str condition) => condition_ref_warnings condition detection
    | _ => []
  (errors1 ++ errors2, warnings)

/-- Deduplicate a list keeping the first occurrence of each element. -/
def dedupKeepFirst : List String → List String
  | [] => []
  | x :: xs => x :: (dedupKeepFirst xs).filter (fun y => y != x)

/-- Modelled from the spec (§4.5), for comparison against
`parse_condition_selections`: the word-boundary tokens of the condition
that are not reserved keywords and that are detection keys other than
`condition`, in order of first appearance, duplicates removed. -/
def spec_condition_refs (condition : String)
    (detection : List (String × SigmaValue)) : List String :=
  dedupKeepFirst ((wordTokens condition).filter (fun t =>
    !(logic_keywords.contains t) && t != "condition" && (dictGet t detection).isSome))

/-- Modelled from the spec (§4.5), for comparison against
`parse_condition`: the concatenation of the selection queries of the
spec's referenced selections, in the spec's order. -/
def spec_detection_query (condition : String)
    (detection : List (String × SigmaValue)) : String :=
  String.join ((spec_condition_refs condition detection).filterMap (fun name =>
    match dictGet name detection with
    | some (.dict es) => some (build_selection_query es)
    | _ => none))

/-- Modelled from the spec (§4.3), for comparison against
`get_logsource_filter`: category mapping if present and mapped under the
product, else service mapping if present and mapped, else the wildcard
fragment. -/
def resolve_spec (logsource : LogSource) : String :=
  let product := pyLower (logsource.product.getD "")
  let category := pyLower (logsource.category.getD "")
  let service := pyLower (logsource.service.getD "")
  match dictGet product logsource_mappings with
  | none => "_index=*"
  | some table =>
    match (if category != "" then dictGet category table else none) with
    | some m => String.intercalate " " (render_source_mapping m)
    | none =>
      match (if service != "" then dictGet service table else none) with
      | some m => String.intercalate " " (render_source_mapping m)
      | none => "_index=*"

/-! ### Helper lemmas -/

theorem dictGet_mem {α : Type} {k : String} {v : α} {l : List (String × α)}
    (h : dictGet k l = some v) : v ∈ l.map Prod.snd := by
  induction l with
  | nil => simp [dictGet] at h
  | cons p rest ih =>
    obtain ⟨k2, w⟩ := p
    by_cases hk : k = k2
    · simp only [dictGet, if_pos hk, Option.some.injEq] at h
      simp [h]
    · simp only [dictGet, if_neg hk] at h
      simpa using Or.inr (ih h)

theorem dictGet_eq_none {α : Type} {k : String} {l : List (String × α)}
    (h : k ∉ l.map Prod.fst) : dictGet k l = none := by
  induction l with
  | nil => rfl
  | cons p rest ih =>
    obtain ⟨k2, w⟩ := p
    simp only [List.map_cons, List.mem_cons] at h
    push_neg at h
    simp [dictGet, h.1, ih h.2]

theorem pyLower_ne_empty {s : String} (h : s ≠ "") : pyLower s ≠ "" := by
  intro hc
  apply h
  obtain ⟨data⟩ := s
  cases data with
  | nil => rfl
  | cons c cs => exact absurd (congrArg String.data hc) (by simp [pyLower])

theorem logsource_table_values_nonempty :
    ∀ tbl ∈ logsource_mappings.map Prod.snd, ∀ m ∈ tbl.map Prod.snd, m ≠ [] := by
  decide

theorem render_source_mapping_ne_nil {m : List (String × String)} (h : m ≠ []) :
    render_source_mapping m ≠ [] := by
  simpa [render_source_mapping] using h

theorem get_logsource_filter_eq_resolve_spec (ls : LogSource) :
    get_logsource_filter ls = resolve_spec ls := by
  unfold get_logsource_filter resolve_spec
  cases hp : dictGet (pyLower (ls.product.getD "")) logsource_mappings with
  | none => simp [hp]
  | some table =>
    have hne : ∀ m ∈ table.map Prod.snd, m ≠ [] :=
      fun m hm => logsource_table_values_nonempty table (dictGet_mem hp) m hm
    by_cases hc : (pyLower (ls.category.getD "") != "") = true
    · cases hcat : dictGet (pyLower (ls.category.getD "")) table with
      | some m =>
        have hm : render_source_mapping m ≠ [] :=
          render_source_mapping_ne_nil (hne m (dictGet_mem hcat))
        simp [hp, hc, hcat, hm]
      | none =>
        by_cases hs : (pyLower (ls.service.getD "") != "") = true
        · cases hsrv : dictGet (pyLower (ls.service.getD "")) table with
          | some m =>
            have hm : render_source_mapping m ≠ [] :=
              render_source_mapping_ne_nil (hne m (dictGet_mem hsrv))
            simp [hp, hc, hcat, hs, hsrv, hm]
          | none => simp [hp, hc, hcat, hs, hsrv]
        · simp [hp, hc, hcat, hs]
    · by_cases hs : (pyLower (ls.service.getD "") != "") = true
      · cases hsrv : dictGet (pyLower (ls.service.getD "")) table with
        | some m =>
          have hm : render_source_mapping m ≠ [] :=
            render_source_mapping_ne_nil (hne m (dictGet_mem hsrv))
          simp [hp, hc, hs, hsrv, hm]
        | none => simp [hp, hc, hs, hsrv]
      · simp [hp, hc, hs]

/-! ### Claim theorems -/

/-- C3: the logsource resolver selects the category mapping when the
category is present and mapped under the product, else the service
mapping when present and mapped, else the wildcard fragment; for
windows/security/sysmon it selects the Security mapping, and an unknown
product yields the wildcard fragment. -/
theorem get_logsource_filter_precedence (ls : LogSource) :
    get_logsource_filter ls = resolve_spec ls ∧
    get_logsource_filter ⟨some "windows", some "security", some "sysmon"⟩ =
      "_sourceName=Security" ∧
    get_logsource_filter ⟨some "nonexistent", none, none⟩ = "_index=*" :=
  ⟨get_logsource_filter_eq_resolve_spec ls, by decide, by decide⟩

/-- The end-to-end example rule of the spec (§8, property 7). -/
def c2_rule : SigmaRule :=
  { title := some "Suspicious PowerShell",
    description := none,
    level := some "high",
    tags := some ["attack.t1059.001"],
    detection := some
      [("selection", .dict [("CommandLine", .list [.str "*-enc*", .str "*-EncodedCommand*"])]),
       ("condition", .str "selection")],
    logsource := some ⟨some "windows", some "powershell", none⟩ }

/-- C2: converting the Suspicious PowerShell example rule yields a query
containing the PowerShell source mapping and the expected selection
clause, threshold 0, and ttp tag T1059.001. -/
theorem convert_powershell_example :
    strContains (convert_sigma_to_sumologic c2_rule).query "_sourceName=PowerShell" = true ∧
    strContains (convert_sigma_to_sumologic c2_rule).query
      "(commandline = \"*-enc*\" OR commandline = \"*-EncodedCommand*\")" = true ∧
    (convert_sigma_to_sumologic c2_rule).threshold = 0 ∧
    (convert_sigma_to_sumologic c2_rule).tags.ttp = "T1059.001" := by
  decide

/-- C4 counterexample: on the empty field name, which misses the fixed
table, `convert_field_name` returns the empty string, so the output is
not non-empty for every string input. -/
theorem convert_field_name_empty_input : convert_field_name "" = "" := by
  decide

/-- C4 (amended): for every non-empty field name, `convert_field_name`
returns a non-empty string, and the result is either the mapped
target-field expression of the fixed table or the input lowercased. -/
theorem convert_field_name_total (s : String) (h : s ≠ "") :
    convert_field_name s ≠ "" ∧
    ((∃ v, dictGet s field_mappings = some v ∧ convert_field_name s = v) ∨
      convert_field_name s = pyLower s) := by
  unfold convert_field_name
  cases hl : dictGet s field_mappings with
  | none => exact ⟨pyLower_ne_empty h, Or.inr rfl⟩
  | some v =>
    refine ⟨?_, Or.inl ⟨v, rfl, rfl⟩⟩
    have hall : ∀ w ∈ field_mappings.map Prod.snd, w ≠ "" := by decide
    exact hall v (dictGet_mem hl)

/-- Witness for C4's amended theorem at the unmapped field `FooBar`. -/
theorem convert_field_name_total_witness : convert_field_name "FooBar" ≠ "" :=
  (convert_field_name_total "FooBar" (by decide)).1

/-- C5: encoding a three-element sequence of scalar values is the
`OR`-join of the element encodings. -/
theorem convert_value_or_join (a b c : SigmaValue)
    (ha : a.isScalar = true) (hb : b.isScalar = true) (hc : c.isScalar = true) :
    convert_value (.list [a, b, c]) =
      convert_value a ++ " OR " ++ convert_value b ++ " OR " ++ convert_value c := by
  simp [convert_value, convert_value_list, String.intercalate, String.intercalate.go,
    String.append_assoc]

/-- Witness for C5 at the scalar sequence `["a", 2, "c"]`. -/
theorem convert_value_or_join_witness :
    convert_value (.list [.str "a", .int 2, .str "c"]) =
      convert_value (.str "a") ++ " OR " ++ convert_value (.int 2) ++
        " OR " ++ convert_value (.str "c") :=
  convert_value_or_join (.str "a") (.int 2) (.str "c") rfl rfl rfl

/-- C7: the converter and the artifact generator are deterministic —
two conversions of the same rule document yield the same monitor
configuration, and rendering them with the same rule id yields identical
Terraform text. -/
theorem convert_deterministic (r : SigmaRule) (rule_id : String)
    (c1 c2 : MonitorConfig) (t1 t2 : String)
    (h1 : convert_sigma_to_sumologic r = c1) (h2 : convert_sigma_to_sumologic r = c2)
    (g1 : generate_terraform c1 rule_id = t1) (g2 : generate_terraform c2 rule_id = t2) :
    c1 = c2 ∧ t1 = t2 := by
  subst h1; subst h2; subst g1; subst g2; exact ⟨rfl, rfl⟩

/-- Witness for C7 at a concrete rule document and rule id. -/
theorem convert_deterministic_witness :
    convert_sigma_to_sumologic c2_rule = convert_sigma_to_sumologic c2_rule ∧
    generate_terraform (convert_sigma_to_sumologic c2_rule) "rule_1" =
      generate_terraform (convert_sigma_to_sumologic c2_rule) "rule_1" :=
  convert_deterministic c2_rule "rule_1"
    (convert_sigma_to_sumologic c2_rule) (convert_sigma_to_sumologic c2_rule)
    (generate_terraform (convert_sigma_to_sumologic c2_rule) "rule_1")
    (generate_terraform (convert_sigma_to_sumologic c2_rule) "rule_1")
    rfl rfl rfl rfl

theorem dictGet_of_mem {α : Type} {k : String} {w : α} {l : List (String × α)}
    (hmem : (k, w) ∈ l) (hnd : (l.map Prod.fst).Nodup) : dictGet k l = some w := by
  induction l with
  | nil => cases hmem
  | cons p rest ih =>
    obtain ⟨k2, v2⟩ := p
    simp only [List.map_cons, List.nodup_cons] at hnd
    rcases List.mem_cons.mp hmem with he | hm
    · obtain ⟨hk, hw⟩ := Prod.mk.injEq .. ▸ he
      simp [dictGet, hk, hw]
    · have hk : ¬ k = k2 := by
        intro e
        subst e
        exact hnd.1 (by simpa using List.mem_map_of_mem Prod.fst hm)
      simp [dictGet, hk, ih hm hnd.2]

theorem filterMap_lookup (G : SigmaValue → Option String) (pred : String → Bool)
    (det : List (String × SigmaValue)) (h : (det.map Prod.fst).Nodup) :
    ((det.map Prod.fst).filter pred).filterMap (fun name => (dictGet name det).bind G) =
      det.filterMap (fun p => if pred p.1 then G p.2 else none) := by
  induction det with
  | nil => rfl
  | cons p rest ih =>
    obtain ⟨k, v⟩ := p
    simp only [List.map_cons, List.nodup_cons] at h
    obtain ⟨hk, hnd⟩ := h
    have hcongr : ((rest.map Prod.fst).filter pred).filterMap
          (fun name => (dictGet name ((k, v) :: rest)).bind G) =
        ((rest.map Prod.fst).filter pred).filterMap
          (fun name => (dictGet name rest).bind G) := by
      apply List.filterMap_congr
      intro name hn
      have hmem : name ∈ rest.map Prod.fst := (List.mem_filter.mp hn).1
      have hne : ¬ name = k := fun e => hk (e ▸ hmem)
      simp [dictGet, hne]
    have hkk : dictGet k ((k, v) :: rest) = some v := by simp [dictGet]
    by_cases hpk : pred k = true
    · simp only [List.map_cons, List.filter_cons, hpk, if_true, List.filterMap_cons, hkk,
        Option.some_bind, hcongr, ih hnd]
    · simp only [List.map_cons, List.filter_cons, hpk, if_false, Bool.false_eq_true,
        List.filterMap_cons, hcongr, ih hnd]

theorem parse_condition_eq (condition : String) (detection : List (String × SigmaValue))
    (h : (detection.map Prod.fst).Nodup) :
    parse_condition condition detection =
      String.join (detection.filterMap (fun p =>
        if p.1 != "condition" && strContains condition p.1 then
          match p.2 with
          | SigmaValue.dict es => some (build_selection_query es)
          | _ => none
        else none)) := by
  have hfun : ∀ name,
      (match dictGet name detection with
        | some (SigmaValue.dict es) => some (build_selection_query es)
        | _ => none) =
      (dictGet name detection).bind (fun v =>
        match v with
        | SigmaValue.dict es => some (build_selection_query es)
        | _ => none) := by
    intro name
    cases dictGet name detection with
    | none => rfl
    | some v => cases v <;> rfl
  show String.join
      (((detection.map Prod.fst).filter
          (fun key => key != "condition" && strContains condition key)).filterMap
        (fun name =>
          match dictGet name detection with
          | some (SigmaValue.dict es) => some (build_selection_query es)
          | _ => none)) = _
  rw [List.filterMap_congr (fun name _ => hfun name),
    filterMap_lookup _ _ detection h]

theorem filterMap_eq_filterMap_filter {α β : Type} (f : α → Option β) (q : α → Bool)
    (l : List α) (h : ∀ p ∈ l, q p = false → f p = none) :
    l.filterMap f = (l.filter q).filterMap f := by
  induction l with
  | nil => rfl
  | cons x xs ih =>
    have ih2 := ih (fun p hp hq => h p (List.mem_cons_of_mem _ hp) hq)
    by_cases hq : q x = true
    · simp [List.filter_cons, hq, List.filterMap_cons, ih2]
    · have hfx : f x = none := h x (List.mem_cons_self _ _) (by simpa using hq)
      simp [List.filter_cons, hq, List.filterMap_cons, hfx, ih2]

theorem condition_ref_warnings_go_eq (detection : List (String × SigmaValue))
    (tokens : List String) :
    condition_ref_warnings_go detection tokens =
      (tokens.filter (fun t =>
        !(logic_keywords.contains t) && !(dictGet t detection).isSome)).map
        dangling_ref_warning := by
  induction tokens with
  | nil => rfl
  | cons t rest ih =>
    by_cases h1 : t ∈ logic_keywords
    · simp [condition_ref_warnings_go, h1, List.filter_cons, ih]
    · cases hd : dictGet t detection with
      | some v => simp [condition_ref_warnings_go, h1, hd, List.filter_cons, ih]
      | none => simp [condition_ref_warnings_go, h1, hd, List.filter_cons, ih]

theorem mitre_fold_ttp (tags : List String) (acc : Option String × List String) :
    (tags.foldl (fun mitre_tags tag =>
      if pyStartswith tag "attack.t" then
        (some (pyUpper (pyReplace tag "attack." "")), mitre_tags.2)
      else if pyStartswith tag "attack." then
        (mitre_tags.1, mitre_tags.2 ++ [pyReplace tag "attack." ""])
      else mitre_tags) acc).1 =
      match tags.reverse.find? (fun t => pyStartswith t "attack.t") with
      | some t => some (pyUpper (pyReplace t "attack." ""))
      | none => acc.1 := by
  induction tags generalizing acc with
  | nil => rfl
  | cons tag rest ih =>
    simp only [List.foldl_cons, List.reverse_cons, List.find?_append]
    rw [ih]
    cases hf : rest.reverse.find? (fun t => pyStartswith t "attack.t") with
    | some t => rfl
    | none =>
      by_cases h1 : pyStartswith tag "attack.t" = true
      · simp [List.find?, h1]
      · by_cases h2 : pyStartswith tag "attack." = true
        · simp [List.find?, h1, h2]
        · simp [List.find?, h1, h2]

/-- The detection mapping of C1's counterexample: the keys appear in the
order `filter1`, `selection1`, while the condition mentions `selection1`
first. -/
def c1_detection : List (String × SigmaValue) :=
  [("filter1", SigmaValue.dict [("a", SigmaValue.str "1")]),
   ("selection1", SigmaValue.dict [("b", SigmaValue.str "2")]),
   ("condition", SigmaValue.str "selection1 and not filter1")]

/-- C1 counterexample: `parse_condition` collects referenced selections
in detection-mapping insertion order by substring containment, not in
order of first appearance of word-boundary tokens of the condition, so
both its referenced-selection list and its detection query differ from
the spec-described ones on `c1_detection`. -/
theorem parse_condition_order_cex :
    parse_condition_selections "selection1 and not filter1" c1_detection ≠
      spec_condition_refs "selection1 and not filter1" c1_detection ∧
    parse_condition "selection1 and not filter1" c1_detection ≠
      spec_detection_query "selection1 and not filter1" c1_detection := by
  decide

/-- C1 (amended): the referenced-selection list is exactly the detection
keys other than `condition` that occur as substrings of the condition
string, in detection-mapping insertion order; the detection query is the
concatenation over the detection entries of the selection queries of the
referenced mapping-valued selections, in that order.  For condition
`selection1 and not filter1` and detection keys in order `selection1`,
`filter1`, the referenced list is `[selection1, filter1]`. -/
theorem parse_condition_refs (condition : String)
    (detection : List (String × SigmaValue)) (h : (detection.map Prod.fst).Nodup) :
    parse_condition_selections condition detection =
      (detection.map Prod.fst).filter
        (fun key => key != "condition" && strContains condition key) ∧
    parse_condition condition detection =
      String.join (detection.filterMap (fun p =>
        if p.1 != "condition" && strContains condition p.1 then
          match p.2 with
          | SigmaValue.dict es => some (build_selection_query es)
          | _ => none
        else none)) ∧
    parse_condition_selections "selection1 and not filter1"
      [("selection1", SigmaValue.dict [("b", SigmaValue.str "2")]),
       ("filter1", SigmaValue.dict [("a", SigmaValue.str "1")]),
       ("condition", SigmaValue.str "selection1 and not filter1")] =
      ["selection1", "filter1"] :=
  ⟨rfl, parse_condition_eq condition detection h, by decide⟩

/-- Witness for C1's amended theorem on the counterexample detection
mapping (whose keys are nodup). -/
theorem parse_condition_refs_witness :
    parse_condition_selections "selection1 and not filter1" c1_detection =
      (c1_detection.map Prod.fst).filter
        (fun key => key != "condition" && strContains "selection1 and not filter1" key) :=
  (parse_condition_refs "selection1 and not filter1" c1_detection (by decide)).1

/-- C8: a selection referenced by the condition whose value is not a
mapping contributes nothing to the detection query — dropping it from
the detection leaves `parse_condition` unchanged — and a detection whose
only referenced selection is a non-mapping yields the empty query. -/
theorem parse_condition_skips_nonmapping (condition : String)
    (detection : List (String × SigmaValue)) (k : String) (v : SigmaValue)
    (hnd : (detection.map Prod.fst).Nodup)
    (hv : dictGet k detection = some v) (hvd : v.isDict = false) :
    parse_condition condition detection =
      parse_condition condition (detection.filter (fun p => p.1 != k)) ∧
    parse_condition "selection1"
      [("selection1", SigmaValue.list [SigmaValue.str "x"]),
       ("condition", SigmaValue.str "selection1")] = "" := by
  constructor
  · have hnd2 : ((detection.filter (fun p => p.1 != k)).map Prod.fst).Nodup :=
      ((List.filter_sublist detection).map Prod.fst).nodup hnd
    rw [parse_condition_eq condition detection hnd,
      parse_condition_eq condition _ hnd2]
    congr 1
    apply filterMap_eq_filterMap_filter
    intro p hp hq
    have hpk : p.1 = k := by simpa using hq
    have hpv : p.2 = v := by
      have : dictGet k detection = some p.2 := by
        have := dictGet_of_mem (l := detection) (k := k) (w := p.2) ?_ hnd
        · exact this
        · have : (p.1, p.2) ∈ detection := by simpa using hp
          simpa [hpk] using this
      rw [hv] at this
      exact (Option.some.injEq .. ▸ this).symm
    by_cases hpred : (p.1 != "condition" && strContains condition p.1) = true
    · simp only [hpred, if_true]
      rw [hpv] at *
      cases v with
      | dict es => simp [SigmaValue.isDict] at hvd
      | str s => rfl
      | int n => rfl
      | list vs => rfl
    · simp [hpred]
  · decide

/-- Witness for C8 at a detection whose referenced selection holds a
list value. -/
theorem parse_condition_skips_nonmapping_witness :
    parse_condition "selection1"
      [("selection1", SigmaValue.list [SigmaValue.str "x"]),
       ("condition", SigmaValue.str "selection1")] =
      parse_condition "selection1"
        (List.filter (fun p => p.1 != "selection1")
          [("selection1", SigmaValue.list [SigmaValue.str "x"]),
           ("condition", SigmaValue.str "selection1")]) :=
  (parse_condition_skips_nonmapping "selection1"
    [("selection1", SigmaValue.list [SigmaValue.str "x"]),
     ("condition", SigmaValue.str "selection1")]
    "selection1" (SigmaValue.list [SigmaValue.str "x"]) (by decide) rfl rfl).1

/-- The detection mapping of C6's counterexample: its only selection key
`sel` is a proper substring of the condition's only token `selection`. -/
def c6_detection : List (String × SigmaValue) :=
  [("sel", SigmaValue.dict []), ("condition", SigmaValue.str "selection")]

/-- C6 counterexample: the validator does not tokenize identically to
the Condition Evaluator — on condition `selection`, the validator warns
that token `selection` is dangling, while the evaluator references the
selection `sel` by substring containment; the evaluator's
referenced-selection list differs from the non-keyword word tokens that
are detection keys. -/
theorem validator_tokenization_differs_cex :
    (validate_detection_checks c6_detection).2 = [dangling_ref_warning "selection"] ∧
    parse_condition_selections "selection" c6_detection = ["sel"] ∧
    parse_condition_selections "selection" c6_detection ≠
      (wordTokens "selection").filter (fun t =>
        !(logic_keywords.contains t) && (dictGet t c6_detection).isSome) := by
  decide

/-- C6 (amended): the condition-reference validator tokenizes the
condition by word boundaries (unlike the Condition Evaluator, which
tests detection keys for substring occurrence) and emits one warning
naming each occurrence of a non-keyword token that is not a key of the
detection mapping, and only those; condition `selection1 and selection2`
with a detection containing only `selection1` produces exactly one
warning naming `selection2`. -/
theorem condition_ref_warnings_characterization (condition : String)
    (detection : List (String × SigmaValue)) :
    condition_ref_warnings condition detection =
      ((wordTokens condition).filter (fun t =>
        !(logic_keywords.contains t) && !(dictGet t detection).isSome)).map
        dangling_ref_warning ∧
    (validate_detection_checks
      [("selection1", SigmaValue.dict []),
       ("condition", SigmaValue.str "selection1 and selection2")]).2 =
      [dangling_ref_warning "selection2"] :=
  ⟨condition_ref_warnings_go_eq detection (wordTokens condition), by decide⟩

/-- C9: a rule without a `level` key converts with level `medium` and
threshold 0, and any level outside the severity table yields
threshold 0. -/
theorem convert_level_fallbacks (r r2 : SigmaRule) (lvl : String)
    (h1 : r.level = none) (h2 : r2.level = some lvl)
    (h3 : lvl ∉ ["critical", "high", "medium", "low", "informational"]) :
    (convert_sigma_to_sumologic r).level = "medium" ∧
    (convert_sigma_to_sumologic r).threshold = 0 ∧
    (convert_sigma_to_sumologic r2).threshold = 0 := by
  refine ⟨?_, ?_, ?_⟩
  · simp [convert_sigma_to_sumologic, h1]
  · simp [convert_sigma_to_sumologic, h1, severity_map, dictGet]
  · have hnone : dictGet lvl severity_map = none := by
      apply dictGet_eq_none
      simpa [severity_map] using h3
    simp [convert_sigma_to_sumologic, h2, hnone]

/-- Witness for C9 at a rule without a level and a rule with the
unknown level `urgent`. -/
theorem convert_level_fallbacks_witness :
    (convert_sigma_to_sumologic ⟨none, none, none, none, none, none⟩).level = "medium" ∧
    (convert_sigma_to_sumologic ⟨none, none, none, none, none, none⟩).threshold = 0 ∧
    (convert_sigma_to_sumologic ⟨none, none, some "urgent", none, none, none⟩).threshold = 0 :=
  convert_level_fallbacks ⟨none, none, none, none, none, none⟩
    ⟨none, none, some "urgent", none, none, none⟩ "urgent" rfl rfl (by decide)

/-- C10: the ttp tag is derived from the last tag beginning with
`attack.t` in list order (each occurrence overwrites the previous), and
any such tag is used, not only well-formed technique tags: with tags
`[attack.t1059.001, attack.t1003]` the ttp is `T1003`, and the
non-technique tag `attack.tactic_evasion` still becomes the ttp. -/
theorem convert_ttp_last_tag (r : SigmaRule) :
    (convert_sigma_to_sumologic r).tags.ttp =
      (match (r.tags.getD []).reverse.find? (fun t => pyStartswith t "attack.t") with
        | some t => pyUpper (pyReplace t "attack." "")
        | none => "") ∧
    (convert_sigma_to_sumologic ⟨none, none, none,
        some ["attack.t1059.001", "attack.t1003"], none, none⟩).tags.ttp = "T1003" ∧
    (convert_sigma_to_sumologic ⟨none, none, none,
        some ["attack.tactic_evasion"], none, none⟩).tags.ttp = "TACTIC_EVASION" := by
  refine ⟨?_, by decide, by decide⟩
  show (mitre_tags_fold (r.tags.getD [])).1.getD "" = _
  unfold mitre_tags_fold
  rw [mitre_fold_ttp]
  cases (r.tags.getD []).reverse.find? (fun t => pyStartswith t "attack.t") <;> simp

end DaaC
